import Mathlib

/-!
Shallow embedding of the two scripts of the `nba-onoff-fetch` repository,
`fetch_season_totals.py` and `fetch_onoff.py`, together with proofs about
the merge engine (`update_csv`), the derived-column computation
(`add_derived_cols`), the bounded retry loops, the per-unit control flow of
`pull_block`, and the run-level status logic of both `main` functions.

Modelling conventions:
* pandas DataFrames become `List` of record rows; `concat`, boolean-mask
  filtering, `drop_duplicates(keep="last")` and `sort_values` become the
  corresponding list operations;
* the float columns become exact rationals; a pandas division by zero never
  raises and yields NaN or an infinity, which we render as `none` in an
  `Option ℚ` valued derived column;
* network calls are abstracted by an oracle `Nat → Option α` giving the
  outcome of the n-th attempt of a unit (`none` = the attempt raised);
* a CSV file on disk is `Option (List Row)`: `none` when the file does not
  exist yet.
-/

namespace NbaFetch

/-- A row of the season-totals table of `fetch_season_totals.py`.  Base
stat columns are exact rationals; the two derived columns are `Option ℚ`
with `none` standing for the undefined (NaN/inf) value that pandas float
division produces on a zero denominator. -/
structure Row where
  year : Int := 0
  FG3A : ℚ := 0
  FG2A : ℚ := 0
  FTA : ℚ := 0
  Turnovers : ℚ := 0
  OffRebounds : ℚ := 0
  FTA_Rate : Option ℚ := none
  TOVpct : Option ℚ := none
deriving DecidableEq

/-- Pandas float division: never raises, a zero denominator gives the
undefined value (`none`). -/
def safeDiv (a b : ℚ) : Option ℚ := if b = 0 then none else some (a / b)

/-- The local variable `fga = df["FG3A"] + df["FG2A"]` of `add_derived_cols`. -/
def fgaOf (r : Row) : ℚ := r.FG3A + r.FG2A

/-- The denominator of the `TOV%` column of `add_derived_cols`:
`fga + 0.44*FTA + Turnovers - OffRebounds`. -/
def tovDen (r : Row) : ℚ := fgaOf r + 0.44 * r.FTA + r.Turnovers - r.OffRebounds

/-- Row-level rendition of `add_derived_cols` (the pandas version applies
the same arithmetic to every row of the frame at once). -/
def addDerivedRow (r : Row) : Row :=
  { r with
    FTA_Rate := safeDiv r.FTA (fgaOf r)
    TOVpct := safeDiv (100 * r.Turnovers) (tovDen r) }

/-- `add_derived_cols(df)`: recompute both derived columns on every row. -/
def addDerivedCols (df : List Row) : List Row := df.map addDerivedRow

/-- `combined.drop_duplicates(subset=["year"], keep="last")`: keep a row
iff no later row carries the same `year`. -/
def dropDuplicatesKeepLast : List Row → List Row
  | [] => []
  | r :: rest =>
    if ∃ s ∈ rest, s.year = r.year then dropDuplicatesKeepLast rest
    else r :: dropDuplicatesKeepLast rest

/-- Insertion of a row into a list sorted ascending by `year`. -/
def insertRow (x : Row) : List Row → List Row
  | [] => [x]
  | s :: rest => if x.year ≤ s.year then x :: s :: rest else s :: insertRow x rest

/-- `combined.sort_values("year")` (the keys are unique at the call site,
so any correct sort gives the same list; we use insertion sort). -/
def sortByYear : List Row → List Row
  | [] => []
  | r :: rest => insertRow r (sortByYear rest)

/-- The `existing` table of `update_csv`: the file's rows with the target
year filtered out when the file exists, the empty table otherwise. -/
def existingRows (csvFile : Option (List Row)) (year : Int) : List Row :=
  match csvFile with
  | some prev => prev.filter (fun r => r.year ≠ year)
  | none => []

/-- `update_csv(csv_path, new_data, year)`: drop the target year from the
existing table, append the new data, deduplicate on `year` keeping the
last occurrence, sort ascending by `year`, recompute the derived columns,
and return (= persist) the result. -/
def update_csv (csvFile : Option (List Row)) (new_data : List Row) (year : Int) :
    List Row :=
  let combined := existingRows csvFile year ++ new_data
  let deduped := dropDuplicatesKeepLast combined
  let sorted := sortByYear deduped
  addDerivedCols sorted

/-- Shared shape of the two bounded retry loops (`fetch_totals` and the
`while attempts < MAX_RETRIES and not success` loop of `pull_block`): make
one attempt per iteration, stop at the first success or after the given
number of attempts.  `oracle n` is the outcome of the call with `n` prior
calls made; the second component of the result is the total number of
attempts made. -/
def fetchLoop {α : Type} (oracle : Nat → Option α) : Nat → Nat → Option α × Nat
  | 0, made => (none, made)
  | n + 1, made =>
    match oracle made with
    | some t => (some t, made + 1)
    | none => fetchLoop oracle n (made + 1)

/-- `max_retries = 15` of `fetch_totals`. -/
def totalsMaxRetries : Nat := 15

/-- `MAX_RETRIES = 5` of `fetch_onoff.py`. -/
def MAX_RETRIES : Nat := 5

/-- `row["year"] = year`. -/
def setYear (r : Row) (year : Int) : Row := { r with year := year }

/-- A response of the remote API, reduced to what the scripts inspect: the
HTTP status code and the parse of the designated payload field
(`single_row_table_data` / `multi_row_table_data`); `none` means the JSON
decode or key extraction raises. -/
structure HttpResponse (ρ : Type) where
  status : Nat
  payload : Option ρ
deriving DecidableEq

/-- One attempt of `fetch_totals`: the status code is never inspected (the
source has no `raise_for_status`), the attempt succeeds iff the payload
parses. -/
def totalsAttempt (resp : HttpResponse Row) : Option Row := resp.payload

/-- `fetch_totals(year, ...)`: retry up to `max_retries` times; on success
return the single parsed row with `year` written into it, after exhausting
the retries return the empty table (never raise). -/
def fetch_totals (oracle : Nat → Option Row) (year : Int) : List Row :=
  match (fetchLoop oracle totalsMaxRetries 0).1 with
  | some row => [setYear row year]
  | none => []

/-- The four CSV files that `fetch_season_totals.py`'s `main` maintains;
`none` = the file does not exist. -/
structure SeasonFiles where
  rs : Option (List Row) := none
  ps : Option (List Row) := none
  rsLev : Option (List Row) := none
  psLev : Option (List Row) := none
deriving DecidableEq

/-- `main` of `fetch_season_totals.py`: fetch each of the four datasets in
order and call `update_csv` for a dataset iff its fetched table is
non-empty; the process exit status (second component) is always 0. -/
def seasonMain (o1 o2 o3 o4 : Nat → Option Row) (year : Int)
    (files : SeasonFiles) : SeasonFiles × Nat :=
  let rsData := fetch_totals o1 year
  let f1 := if rsData ≠ [] then
    { files with rs := some (update_csv files.rs rsData year) } else files
  let psData := fetch_totals o2 year
  let f2 := if psData ≠ [] then
    { f1 with ps := some (update_csv f1.ps psData year) } else f1
  let rsLevData := fetch_totals o3 year
  let f3 := if rsLevData ≠ [] then
    { f2 with rsLev := some (update_csv f2.rsLev rsLevData year) } else f2
  let psLevData := fetch_totals o4 year
  let f4 := if psLevData ≠ [] then
    { f3 with psLev := some (update_csv f3.psLev psLevData year) } else f3
  (f4, 0)

/-- A row of a WOWY frame fetched by `lineuppull` in `fetch_onoff.py`.
`corner3FGM` models the optional `Corner3FGM` column (`none` = the column
is absent from the frame); the remaining stat columns are abstracted into
one field, which none of the claims inspect. -/
structure WRow where
  corner3FGM : Option Int := none
  stat : Int := 0
deriving DecidableEq

/-- A WOWY row after `pull_block` appends the identity columns
`team_id`, `year`, `season`, `team_vs`. -/
structure TRow where
  base : WRow
  team_id : Int
  year : Int
  season : String
  team_vs : Bool
deriving DecidableEq

/-- `requests.Response.raise_for_status` raises exactly for a 4xx or 5xx
status code; `lineuppull` then parses `multi_row_table_data`.  An attempt
therefore fails (`none`) iff the status is in `[400, 600)` or the payload
does not parse. -/
def lineuppull (resp : HttpResponse (List WRow)) : Option (List WRow) :=
  if 400 ≤ resp.status ∧ resp.status < 600 then none else resp.payload

/-- `get_filename(team_id, opp, leverage)`. -/
def get_filename (team_id : Int) (opp leverage : Bool) : String :=
  let name := toString team_id
  let name := if opp then name ++ "_vs" else name
  let name := if leverage then name ++ "_leverage" else name
  name ++ ".csv"

/-- The season string `f"{year - 1}-{str(year)[-2:]}"`. -/
def seasonString (year : Int) : String :=
  toString (year - 1) ++ "-" ++ (toString year).drop ((toString year).length - 2)

/-- `"Opponent" if opp else "Team"`. -/
def sideName (opp : Bool) : String := if opp then "Opponent" else "Team"

/-- The externally visible per-unit effects of `pull_block` that the claims
talk about: persisting a file, skipping a below-threshold frame, recording
a terminal failure, and the `time.sleep(SLEEP_BETWEEN)` pacing delay. -/
inductive Event where
  | saveFile : String → Nat → Event
  | skipSave : String → Nat → Event
  | recordFail : Int → String → Event
  | paceSleep : Event
deriving DecidableEq

/-- The tagging applied to a successful frame: `reset_index(drop=True)`
(identity on a row list), the four identity columns, and defaulting the
`Corner3FGM` column to 0 when it is absent. -/
def tagFrame (df : List WRow) (team_id year : Int) (season : String)
    (opp : Bool) : List TRow :=
  let tagged := df.map (fun r => TRow.mk r team_id year season opp)
  if tagged.all (fun r => r.base.corner3FGM = none) then
    tagged.map (fun r => { r with base := { r.base with corner3FGM := some 0 } })
  else tagged

/-- The body of `pull_block`'s inner loop for one (team, side) unit: run
the bounded retry loop; on exhaustion record the failure and `continue`
(note: no pacing event); on success tag the frame, save it iff it has more
than 2 rows, and sleep `SLEEP_BETWEEN`.  Returns (events, frame appended
to the accumulator, failure-ledger entry). -/
def processUnit (oracle : Nat → Option (List WRow)) (team_id year : Int)
    (season : String) (opp leverage : Bool) :
    List Event × Option (List TRow) × Option (Int × String) :=
  match (fetchLoop oracle MAX_RETRIES 0).1 with
  | none => ([Event.recordFail team_id (sideName opp)], none,
      some (team_id, sideName opp))
  | some df =>
    let tagged := tagFrame df team_id year season opp
    let filename := get_filename team_id opp leverage
    let ev := if tagged.length > 2 then Event.saveFile filename tagged.length
      else Event.skipSave filename tagged.length
    ([ev, Event.paceSleep], some tagged, none)

/-- The `for team_id in team_ids` loop of `pull_block` for one side
(`opp` fixed): concatenates unit event lists and accumulates frames and
failures in order. -/
def runSide (oracle : Int → Nat → Option (List WRow)) (team_ids : List Int)
    (year : Int) (season : String) (opp leverage : Bool) :
    List Event × List (List TRow) × List (Int × String) :=
  match team_ids with
  | [] => ([], [], [])
  | t :: rest =>
    let u := processUnit (oracle t) t year season opp leverage
    let r := runSide oracle rest year season opp leverage
    (u.1 ++ r.1,
     (match u.2.1 with | some f => f :: r.2.1 | none => r.2.1),
     (match u.2.2 with | some x => x :: r.2.2 | none => r.2.2))

/-- `pull_block(team_ids, year, leverage)`: the Team side (`opp=False`)
then the Opponent side (`opp=True`).  Returns
(team_frames, vs_frames, fail_list, events). -/
def pull_block (oracle : Bool → Int → Nat → Option (List WRow))
    (team_ids : List Int) (year : Int) (leverage : Bool) :
    List (List TRow) × List (List TRow) × List (Int × String) × List Event :=
  let season := seasonString year
  let team := runSide (oracle false) team_ids year season false leverage
  let opp := runSide (oracle true) team_ids year season true leverage
  (team.2.1, opp.2.1, team.2.2 ++ opp.2.2, team.1 ++ opp.1)

/-- The aggregate outcome of a `fetch_onoff.py` run. -/
structure RunResult where
  allFails : List (Int × String)
  events : List Event
  exitCode : Nat
deriving DecidableEq

/-- `main` of `fetch_onoff.py`: the leverage block, then the non-leverage
block; `all_fails = lev_fails + nl_fails`; `sys.exit(1)` iff `all_fails`
is non-empty, otherwise the script falls off the end (exit status 0).
`oracle lev opp t n` is the outcome of attempt `n` of unit `(t, opp)` in
block `lev`. -/
def mainRun (oracle : Bool → Bool → Int → Nat → Option (List WRow))
    (team_ids : List Int) (year : Int) : RunResult :=
  let lev := pull_block (oracle true) team_ids year true
  let nl := pull_block (oracle false) team_ids year false
  let allFails := lev.2.2.1 ++ nl.2.2.1
  { allFails := allFails
    events := lev.2.2.2 ++ nl.2.2.2
    exitCode := if allFails.isEmpty then 0 else 1 }

/-- The concrete row of spec §8: FG3A=10, FG2A=20, FTA=15, Turnovers=12,
OffRebounds=8. -/
def sampleShot : Row :=
  { year := 0, FG3A := 10, FG2A := 20, FTA := 15, Turnovers := 12, OffRebounds := 8 }

/-- A degenerate row making both derived-column denominators zero. -/
def sampleZero : Row := { year := 5, Turnovers := 5, OffRebounds := 5 }

/-- A row whose derived columns are already consistent with its base
columns (`addDerivedRow` fixes it): fga = 2, FTA = Turnovers =
OffRebounds = 0, so both derived values are 0. -/
def sampleFixedA : Row :=
  { year := 1, FG3A := 1, FG2A := 1, FTA_Rate := some 0, TOVpct := some 0 }

/-- The same consistent row under key `year = 2`. -/
def sampleFixedB : Row := { sampleFixedA with year := 2 }

/-- A freshly fetched row for key `year = 2`. -/
def sampleNew : Row :=
  { year := 2, FG3A := 3, FG2A := 1, FTA := 1, Turnovers := 2, OffRebounds := 1 }

/-- A non-2xx response whose payload nonetheless parses. -/
def respNon2xx : HttpResponse Row := { status := 500, payload := some sampleShot }

/-- A three-row WOWY frame (above the persistence threshold). -/
def sampleFrame : List WRow := [{}, {}, {}]

/-!  ## Retry ceiling (C6)  -/

lemma fetchLoop_le {α : Type} (oracle : Nat → Option α) :
    ∀ n made, (fetchLoop oracle n made).2 ≤ made + n := by
  intro n
  induction n with
  | zero => intro made; simp [fetchLoop]
  | succ n ih =>
    intro made
    have h2 := ih (made + 1)
    simp only [fetchLoop]
    cases ho : oracle made with
    | some t =>
      show (some t, made + 1).2 ≤ made + (n + 1)
      omega
    | none =>
      show (fetchLoop oracle n (made + 1)).2 ≤ made + (n + 1)
      omega

lemma fetchLoop_none {α : Type} (oracle : Nat → Option α) :
    ∀ n made, (fetchLoop oracle n made).1 = none →
      (fetchLoop oracle n made).2 = made + n := by
  intro n
  induction n with
  | zero => intro made _; simp [fetchLoop]
  | succ n ih =>
    intro made h
    simp only [fetchLoop] at h ⊢
    cases ho : oracle made with
    | some t =>
      rw [ho] at h
      have h' : some t = (none : Option α) := h
      exact absurd h' (Option.some_ne_none t)
    | none =>
      rw [ho] at h
      have h' : (fetchLoop oracle n (made + 1)).1 = none := h
      show (fetchLoop oracle n (made + 1)).2 = made + (n + 1)
      rw [ih (made + 1) h']; omega

/-- C6: every unit makes at most `MAX_RETRIES` (resp. `max_retries = 15`)
attempts: the attempt count is always at most the ceiling, and when the
loop ends without a success the number of attempts made is exactly the
ceiling.  The first two conjuncts are the `pull_block` loop of
`fetch_onoff.py`, the last two the `fetch_totals` loop of
`fetch_season_totals.py`. -/
theorem retry_ceiling {α β : Type} (o1 : Nat → Option α) (o2 : Nat → Option β) :
    (fetchLoop o1 MAX_RETRIES 0).2 ≤ MAX_RETRIES ∧
    ((fetchLoop o1 MAX_RETRIES 0).1 = none →
      (fetchLoop o1 MAX_RETRIES 0).2 = MAX_RETRIES) ∧
    (fetchLoop o2 totalsMaxRetries 0).2 ≤ totalsMaxRetries ∧
    ((fetchLoop o2 totalsMaxRetries 0).1 = none →
      (fetchLoop o2 totalsMaxRetries 0).2 = totalsMaxRetries) := by
  refine ⟨?_, fun h => ?_, ?_, fun h => ?_⟩
  · simpa using fetchLoop_le o1 MAX_RETRIES 0
  · simpa using fetchLoop_none o1 MAX_RETRIES 0 h
  · simpa using fetchLoop_le o2 totalsMaxRetries 0
  · simpa using fetchLoop_none o2 totalsMaxRetries 0 h

/-- Witness for C6: a unit whose every attempt fails makes exactly
`MAX_RETRIES` attempts; a unit that succeeds at once stays at or below the
`fetch_totals` ceiling. -/
theorem retry_ceiling_witness :
    (fetchLoop (fun _ => (none : Option Unit)) MAX_RETRIES 0).2 = MAX_RETRIES ∧
    (fetchLoop (fun _ => (some 0 : Option Nat)) totalsMaxRetries 0).2 ≤
      totalsMaxRetries :=
  ⟨(retry_ceiling (fun _ => (none : Option Unit))
      (fun _ => (some 0 : Option Nat))).2.1 rfl,
   (retry_ceiling (fun _ => (none : Option Unit))
      (fun _ => (some 0 : Option Nat))).2.2.1⟩

/-!  ## Derived columns (C4, C5)  -/

/-- C4: on every row with non-zero denominators, `add_derived_cols` sets
`FTA_Rate = FTA / (FG3A + FG2A)` and
`TOV% = 100 * Turnovers / ((FG3A+FG2A) + 0.44*FTA + Turnovers - OffRebounds)`. -/
theorem derived_cols_formula (r : Row) (h1 : fgaOf r ≠ 0) (h2 : tovDen r ≠ 0) :
    (addDerivedRow r).FTA_Rate = some (r.FTA / (r.FG3A + r.FG2A)) ∧
    (addDerivedRow r).TOVpct =
      some (100 * r.Turnovers /
        ((r.FG3A + r.FG2A) + 0.44 * r.FTA + r.Turnovers - r.OffRebounds)) := by
  have h1' : ¬(r.FG3A + r.FG2A = 0) := by simpa [fgaOf] using h1
  have h2' : ¬(r.FG3A + r.FG2A + 0.44 * r.FTA + r.Turnovers - r.OffRebounds = 0) := by
    simpa [tovDen, fgaOf] using h2
  constructor
  · simp [addDerivedRow, safeDiv, fgaOf, h1']
  · simp [addDerivedRow, safeDiv, tovDen, fgaOf, h2']

/-- Witness for C4, the spec's concrete instance: FG3A=10, FG2A=20,
FTA=15, Turnovers=12, OffRebounds=8 gives FTA_Rate = 1/2 and
TOV% = 1200/40.6 = 6000/203. -/
theorem derived_cols_formula_witness :
    (addDerivedRow sampleShot).FTA_Rate = some (1 / 2) ∧
    (addDerivedRow sampleShot).TOVpct = some (6000 / 203) := by
  have h := derived_cols_formula sampleShot (by norm_num [fgaOf, sampleShot])
    (by norm_num [tovDen, fgaOf, sampleShot])
  refine ⟨h.1.trans ?_, h.2.trans ?_⟩
  · norm_num [sampleShot]
  · norm_num [sampleShot]

/-- C5: a zero denominator makes the affected derived value the undefined
(`none`) value instead of raising, and the merge still completes: merging
such a row produces the one-row table carrying the undefined value. -/
theorem derived_div_zero (r : Row) :
    (fgaOf r = 0 → (addDerivedRow r).FTA_Rate = none) ∧
    (tovDen r = 0 → (addDerivedRow r).TOVpct = none) ∧
    update_csv none [r] r.year = [addDerivedRow r] := by
  refine ⟨fun h => by simp [addDerivedRow, safeDiv, h],
    fun h => by simp [addDerivedRow, safeDiv, h], ?_⟩
  simp [update_csv, existingRows, dropDuplicatesKeepLast, sortByYear,
    insertRow, addDerivedCols]

/-- Witness for C5: a row with no shot attempts and equal turnovers and
offensive rebounds zeroes both denominators; both derived values come out
undefined and the merge still returns the row. -/
theorem derived_div_zero_witness :
    (addDerivedRow sampleZero).FTA_Rate = none ∧
    (addDerivedRow sampleZero).TOVpct = none ∧
    update_csv none [sampleZero] 5 = [addDerivedRow sampleZero] :=
  ⟨(derived_div_zero sampleZero).1 (by norm_num [fgaOf, sampleZero]),
   (derived_div_zero sampleZero).2.1 (by norm_num [tovDen, fgaOf, sampleZero]),
   (derived_div_zero sampleZero).2.2⟩

/-!  ## Non-2xx handling (C7)  -/

/-- C7 counterexample: in `fetch_totals` the HTTP status is never checked
(no `raise_for_status`), so a 500 response whose body still parses is
treated as a successful fetch: the attempt yields the row and
`fetch_totals` returns a non-empty table built from it. -/
theorem non2xx_success_counterexample :
    ¬(200 ≤ respNon2xx.status ∧ respNon2xx.status < 300) ∧
    totalsAttempt respNon2xx = some sampleShot ∧
    fetch_totals (fun _ => totalsAttempt respNon2xx) 2026 =
      [setYear sampleShot 2026] :=
  ⟨by decide, rfl, rfl⟩

/-- C7 amended: in `fetch_onoff.py` a 4xx/5xx status raises in
`raise_for_status` and so counts as a failed attempt, and a parse failure
counts as a failed attempt; in `fetch_season_totals.py` the attempt
outcome is independent of the HTTP status (so a non-2xx response whose
payload parses is treated as success). -/
theorem non2xx_amended (resp : HttpResponse (List WRow)) (r2 : HttpResponse Row) :
    (400 ≤ resp.status → resp.status < 600 → lineuppull resp = none) ∧
    (resp.payload = none → lineuppull resp = none) ∧
    (∀ s : Nat, totalsAttempt { r2 with status := s } = totalsAttempt r2) := by
  refine ⟨fun h4 h6 => by simp [lineuppull, h4, h6], fun hp => ?_, fun s => rfl⟩
  simp [lineuppull, hp]

/-- Witness for the amended C7: a 404 with a parseable payload still fails
in `lineuppull`, while the `fetch_totals` attempt outcome on the same
payload is the same at status 500 as at status 200. -/
theorem non2xx_amended_witness :
    lineuppull { status := 404, payload := some [] } = none ∧
    totalsAttempt { status := 500, payload := some sampleShot } =
      totalsAttempt { status := 200, payload := some sampleShot } :=
  ⟨(non2xx_amended { status := 404, payload := some [] }
      { status := 200, payload := some sampleShot }).1 (by decide) (by decide),
   (non2xx_amended { status := 404, payload := some [] }
      { status := 200, payload := some sampleShot }).2.2 500⟩

/-!  ## Inter-unit pacing (C8)  -/

/-- C8 counterexample: a unit that ends in terminal failure hits
`continue`, which skips `time.sleep(SLEEP_BETWEEN)`: its event list
records the failure but contains no pacing delay. -/
theorem pacing_skipped_on_failure :
    (processUnit (fun _ => none) 1 2026 "2025-26" false false).2.2 =
      some (1, "Team") ∧
    Event.paceSleep ∉
      (processUnit (fun _ => none) 1 2026 "2025-26" false false).1 := by
  exact ⟨rfl, by decide⟩

/-- C8 amended: the pacing delay `SLEEP_BETWEEN` follows every unit whose
fetch succeeds (whether the frame is saved or skipped as below-threshold),
but a unit that ends in terminal failure `continue`s past it: no pacing
delay is executed for that unit. -/
theorem pacing_amended (oracle : Nat → Option (List WRow)) (t y : Int)
    (s : String) (opp lev : Bool) :
    ((fetchLoop oracle MAX_RETRIES 0).1.isSome →
      Event.paceSleep ∈ (processUnit oracle t y s opp lev).1) ∧
    ((fetchLoop oracle MAX_RETRIES 0).1 = none →
      Event.paceSleep ∉ (processUnit oracle t y s opp lev).1) := by
  constructor
  · intro h
    cases hres : (fetchLoop oracle MAX_RETRIES 0).1 with
    | none => rw [hres] at h; simp at h
    | some df => simp [processUnit, hres]
  · intro h
    simp [processUnit, h]

/-- Witness for the amended C8: a successful (here even below-threshold)
unit is followed by the pacing delay; an exhausted unit is not. -/
theorem pacing_amended_witness :
    Event.paceSleep ∈
      (processUnit (fun _ => some []) 2 2026 "2025-26" false false).1 ∧
    Event.paceSleep ∉
      (processUnit (fun _ => none) 2 2026 "2025-26" true true).1 :=
  ⟨(pacing_amended (fun _ => some []) 2 2026 "2025-26" false false).1 rfl,
   (pacing_amended (fun _ => none) 2 2026 "2025-26" true true).2 rfl⟩

/-!  ## Run status and persistence (C9)  -/

lemma mainRun_exit (oracle : Bool → Bool → Int → Nat → Option (List WRow))
    (ids : List Int) (year : Int) :
    (mainRun oracle ids year).exitCode =
      if (mainRun oracle ids year).allFails.isEmpty then 0 else 1 := rfl

lemma processUnit_save (oracle : Nat → Option (List WRow)) (t y : Int)
    (s : String) (opp lev : Bool) (df : List WRow)
    (h : (fetchLoop oracle MAX_RETRIES 0).1 = some df)
    (hl : 2 < (tagFrame df t y s opp).length) :
    Event.saveFile (get_filename t opp lev) (tagFrame df t y s opp).length ∈
      (processUnit oracle t y s opp lev).1 := by
  simp [processUnit, h, hl]

lemma runSide_mem (oracle : Int → Nat → Option (List WRow)) (ids : List Int)
    (y : Int) (s : String) (opp lev : Bool) (t : Int) (ht : t ∈ ids) (e : Event)
    (he : e ∈ (processUnit (oracle t) t y s opp lev).1) :
    e ∈ (runSide oracle ids y s opp lev).1 := by
  induction ids with
  | nil => simp at ht
  | cons a rest ih =>
    rcases List.mem_cons.mp ht with h | h
    · subst h
      exact List.mem_append_left _ he
    · exact List.mem_append_right _ (ih h)

lemma mainRun_mem (oracle : Bool → Bool → Int → Nat → Option (List WRow))
    (ids : List Int) (year : Int) (lev opp : Bool) (t : Int) (ht : t ∈ ids)
    (e : Event)
    (he : e ∈ (processUnit (oracle lev opp t) t year (seasonString year) opp lev).1) :
    e ∈ (mainRun oracle ids year).events := by
  have hside := runSide_mem (oracle lev opp) ids year (seasonString year) opp lev t ht e he
  cases lev
  · cases opp
    · exact List.mem_append_right _ (List.mem_append_left _ hside)
    · exact List.mem_append_right _ (List.mem_append_right _ hside)
  · cases opp
    · exact List.mem_append_left _ (List.mem_append_left _ hside)
    · exact List.mem_append_left _ (List.mem_append_right _ hside)

/-- C9: a `fetch_onoff.py` run exits with status 0 iff the failure ledger
aggregated over both blocks is empty and with status 1 iff it is
non-empty, while every unit whose fetch succeeded with an above-threshold
frame has its file durably written (its save event is in the run trace)
regardless of any failures elsewhere in the run. -/
theorem run_status (oracle : Bool → Bool → Int → Nat → Option (List WRow))
    (team_ids : List Int) (year : Int) :
    ((mainRun oracle team_ids year).exitCode = 0 ↔
      (mainRun oracle team_ids year).allFails = []) ∧
    ((mainRun oracle team_ids year).exitCode = 1 ↔
      (mainRun oracle team_ids year).allFails ≠ []) ∧
    (∀ lev opp : Bool, ∀ t ∈ team_ids, ∀ df : List WRow,
      (fetchLoop (oracle lev opp t) MAX_RETRIES 0).1 = some df →
      2 < (tagFrame df t year (seasonString year) opp).length →
      Event.saveFile (get_filename t opp lev)
          (tagFrame df t year (seasonString year) opp).length ∈
        (mainRun oracle team_ids year).events) := by
  refine ⟨?_, ?_, ?_⟩
  · rw [mainRun_exit]
    by_cases h : (mainRun oracle team_ids year).allFails = [] <;> simp [h]
  · rw [mainRun_exit]
    by_cases h : (mainRun oracle team_ids year).allFails = [] <;> simp [h]
  · intro lev opp t ht df hdf hlen
    exact mainRun_mem oracle team_ids year lev opp t ht _
      (processUnit_save _ t year (seasonString year) opp lev df hdf hlen)

/-- Witness for C9: with one team and every fetch succeeding with a
three-row frame, the run exits 0 and the leverage Team-side file save is
in the trace. -/
theorem run_status_witness :
    (mainRun (fun _ _ _ _ => some sampleFrame) [1] 2026).exitCode = 0 ∧
    Event.saveFile (get_filename 1 false true)
        (tagFrame sampleFrame 1 2026 (seasonString 2026) false).length ∈
      (mainRun (fun _ _ _ _ => some sampleFrame) [1] 2026).events :=
  ⟨(run_status (fun _ _ _ _ => some sampleFrame) [1] 2026).1.mpr (by decide),
   (run_status (fun _ _ _ _ => some sampleFrame) [1] 2026).2.2 true false 1
     (by decide) sampleFrame rfl (by decide)⟩

/-!  ## Season-totals atomicity on fetch failure (C10)  -/

lemma seasonMain_proj (o1 o2 o3 o4 : Nat → Option Row) (files : SeasonFiles)
    (year : Int) :
    (seasonMain o1 o2 o3 o4 year files).1.rs =
      (if fetch_totals o1 year ≠ [] then
        some (update_csv files.rs (fetch_totals o1 year) year) else files.rs) ∧
    (seasonMain o1 o2 o3 o4 year files).1.ps =
      (if fetch_totals o2 year ≠ [] then
        some (update_csv files.ps (fetch_totals o2 year) year) else files.ps) ∧
    (seasonMain o1 o2 o3 o4 year files).1.rsLev =
      (if fetch_totals o3 year ≠ [] then
        some (update_csv files.rsLev (fetch_totals o3 year) year) else files.rsLev) ∧
    (seasonMain o1 o2 o3 o4 year files).1.psLev =
      (if fetch_totals o4 year ≠ [] then
        some (update_csv files.psLev (fetch_totals o4 year) year) else files.psLev) := by
  simp only [seasonMain]
  split_ifs <;> simp_all

/-- C10: `fetch_totals` is total: after exhausting its retries it returns
the empty table (and on a successful attempt, the one-row table); and
whenever a dataset's fetched table is empty, `main` skips `update_csv`
for that dataset, leaving the corresponding CSV exactly as it was. -/
theorem totals_failure_atomic (o1 o2 o3 o4 : Nat → Option Row)
    (files : SeasonFiles) (year : Int) :
    ((fetchLoop o1 totalsMaxRetries 0).1 = none → fetch_totals o1 year = []) ∧
    (∀ r : Row, (fetchLoop o1 totalsMaxRetries 0).1 = some r →
      fetch_totals o1 year = [setYear r year]) ∧
    (fetch_totals o1 year = [] →
      (seasonMain o1 o2 o3 o4 year files).1.rs = files.rs) ∧
    (fetch_totals o2 year = [] →
      (seasonMain o1 o2 o3 o4 year files).1.ps = files.ps) ∧
    (fetch_totals o3 year = [] →
      (seasonMain o1 o2 o3 o4 year files).1.rsLev = files.rsLev) ∧
    (fetch_totals o4 year = [] →
      (seasonMain o1 o2 o3 o4 year files).1.psLev = files.psLev) := by
  have hp := seasonMain_proj o1 o2 o3 o4 files year
  refine ⟨fun h => by simp [fetch_totals, h],
    fun r h => by simp [fetch_totals, h], fun h => ?_, fun h => ?_,
    fun h => ?_, fun h => ?_⟩
  · rw [hp.1, h]; simp
  · rw [hp.2.1, h]; simp
  · rw [hp.2.2.1, h]; simp
  · rw [hp.2.2.2, h]; simp

/-- Witness for C10: with every attempt failing, `fetch_totals` returns
the empty table and the Regular Season CSV is untouched. -/
theorem totals_failure_atomic_witness :
    fetch_totals (fun _ => none) 2026 = [] ∧
    (seasonMain (fun _ => none) (fun _ => none) (fun _ => none) (fun _ => none)
        2026 { rs := some [sampleFixedA] }).1.rs = some [sampleFixedA] :=
  ⟨(totals_failure_atomic (fun _ => none) (fun _ => none) (fun _ => none)
      (fun _ => none) { rs := some [sampleFixedA] } 2026).1 rfl,
   (totals_failure_atomic (fun _ => none) (fun _ => none) (fun _ => none)
      (fun _ => none) { rs := some [sampleFixedA] } 2026).2.2.1
     ((totals_failure_atomic (fun _ => none) (fun _ => none) (fun _ => none)
        (fun _ => none) { rs := some [sampleFixedA] } 2026).1 rfl)⟩

/-!  ## Merge-engine lemmas (towards C1, C2, C3)  -/

lemma aRow_year (r : Row) : (addDerivedRow r).year = r.year := rfl

lemma aRow_idem (r : Row) : addDerivedRow (addDerivedRow r) = addDerivedRow r := rfl

lemma aDC_cons (r : Row) (l : List Row) :
    addDerivedCols (r :: l) = addDerivedRow r :: addDerivedCols l := rfl

lemma aDC_aDC (l : List Row) :
    addDerivedCols (addDerivedCols l) = addDerivedCols l := by
  induction l with
  | nil => rfl
  | cons a t ih =>
    simp only [aDC_cons]
    rw [aRow_idem, ih]

lemma filter_aDC (p : Row → Bool) (hp : ∀ r, p (addDerivedRow r) = p r)
    (l : List Row) :
    (addDerivedCols l).filter p = addDerivedCols (l.filter p) := by
  induction l with
  | nil => rfl
  | cons a t ih =>
    simp only [aDC_cons, List.filter_cons, hp]
    cases h : p a
    · simp [h, ih]
    · simp [h, ih, aDC_cons]

lemma map_fix_of_eq {l : List Row} (h : addDerivedCols l = l) :
    ∀ a ∈ l, addDerivedRow a = a := by
  induction l with
  | nil => simp
  | cons a t ih =>
    simp only [aDC_cons] at h
    injection h with h1 h2
    intro b hb
    rcases List.mem_cons.mp hb with rfl | hb
    · exact h1
    · exact ih h2 b hb

lemma aDC_eq_self_of_fix {l : List Row} (h : ∀ a ∈ l, addDerivedRow a = a) :
    addDerivedCols l = l := by
  induction l with
  | nil => rfl
  | cons a t ih =>
    simp only [aDC_cons]
    rw [h a (by simp), ih (fun b hb => h b (by simp [hb]))]

lemma aDC_pairwise {R : Int → Int → Prop} {l : List Row}
    (h : l.Pairwise (fun a b => R a.year b.year)) :
    (addDerivedCols l).Pairwise (fun a b => R a.year b.year) := by
  unfold addDerivedCols
  refine List.Pairwise.map addDerivedRow (fun a b hab => ?_) h
  simpa [aRow_year] using hab

lemma mem_insertRow {x a : Row} {l : List Row} :
    a ∈ insertRow x l ↔ a = x ∨ a ∈ l := by
  induction l with
  | nil => simp [insertRow]
  | cons s t ih =>
    simp only [insertRow]
    by_cases h : x.year ≤ s.year
    · simp [h]
    · simp only [if_neg h, List.mem_cons, ih]
      tauto

lemma insertRow_perm (x : Row) (l : List Row) :
    List.Perm (insertRow x l) (x :: l) := by
  induction l with
  | nil => exact List.Perm.refl _
  | cons s t ih =>
    simp only [insertRow]
    by_cases h : x.year ≤ s.year
    · simp [h]
    · rw [if_neg h]
      exact (List.Perm.cons s ih).trans (List.Perm.swap x s t)

lemma sortByYear_perm (l : List Row) : List.Perm (sortByYear l) l := by
  induction l with
  | nil => exact List.Perm.refl _
  | cons r t ih =>
    exact (insertRow_perm r (sortByYear t)).trans (List.Perm.cons r ih)

lemma mem_sortByYear {a : Row} {l : List Row} : a ∈ sortByYear l ↔ a ∈ l :=
  (sortByYear_perm l).mem_iff

lemma mem_dropDup {a : Row} {l : List Row}
    (h : a ∈ dropDuplicatesKeepLast l) : a ∈ l := by
  induction l with
  | nil => simp [dropDuplicatesKeepLast] at h
  | cons r t ih =>
    by_cases hc : ∃ s ∈ t, s.year = r.year
    · rw [dropDuplicatesKeepLast, if_pos hc] at h
      exact List.mem_cons_of_mem r (ih h)
    · rw [dropDuplicatesKeepLast, if_neg hc] at h
      rcases List.mem_cons.mp h with rfl | h
      · exact List.mem_cons_self a t
      · exact List.mem_cons_of_mem r (ih h)

lemma dropDup_nodup (l : List Row) :
    (dropDuplicatesKeepLast l).Pairwise (fun a b => a.year ≠ b.year) := by
  induction l with
  | nil => simp [dropDuplicatesKeepLast]
  | cons r t ih =>
    by_cases hc : ∃ s ∈ t, s.year = r.year
    · simpa [dropDuplicatesKeepLast, hc] using ih
    · rw [dropDuplicatesKeepLast, if_neg hc]
      refine List.Pairwise.cons (fun b hb he => ?_) ih
      exact hc ⟨b, mem_dropDup hb, he.symm⟩

lemma dropDup_eq_self {l : List Row}
    (h : l.Pairwise (fun a b => a.year ≠ b.year)) :
    dropDuplicatesKeepLast l = l := by
  induction l with
  | nil => rfl
  | cons r t ih =>
    rcases List.pairwise_cons.mp h with ⟨hr, ht⟩
    have hc : ¬∃ s ∈ t, s.year = r.year := by
      rintro ⟨s, hs, he⟩
      exact hr s hs he.symm
    rw [dropDuplicatesKeepLast, if_neg hc, ih ht]

lemma dropDup_append_single (l : List Row) (x : Row)
    (h : ∀ r ∈ l, r.year ≠ x.year) :
    dropDuplicatesKeepLast (l ++ [x]) = dropDuplicatesKeepLast l ++ [x] := by
  induction l with
  | nil => simp [dropDuplicatesKeepLast]
  | cons a t ih =>
    have ha : a.year ≠ x.year := h a (by simp)
    by_cases hc : ∃ s ∈ t, s.year = a.year
    · have hc' : ∃ s ∈ t ++ [x], s.year = a.year := by
        rcases hc with ⟨s, hs, he⟩
        exact ⟨s, by simp [hs], he⟩
      rw [List.cons_append, dropDuplicatesKeepLast, if_pos hc',
        dropDuplicatesKeepLast, if_pos hc]
      exact ih (fun r hr => h r (by simp [hr]))
    · have hc' : ¬∃ s ∈ t ++ [x], s.year = a.year := by
        rintro ⟨s, hs, he⟩
        rcases List.mem_append.mp hs with h1 | h1
        · exact hc ⟨s, h1, he⟩
        · rw [List.mem_singleton.mp h1] at he
          exact ha he.symm
      rw [List.cons_append, dropDuplicatesKeepLast, if_neg hc',
        dropDuplicatesKeepLast, if_neg hc,
        ih (fun r hr => h r (by simp [hr])), List.cons_append]

lemma sorted_insertRow (x : Row) {l : List Row}
    (h : l.Pairwise (fun a b => a.year ≤ b.year)) :
    (insertRow x l).Pairwise (fun a b => a.year ≤ b.year) := by
  induction l with
  | nil => simp [insertRow]
  | cons s t ih =>
    rcases List.pairwise_cons.mp h with ⟨hs, ht⟩
    by_cases hle : x.year ≤ s.year
    · rw [insertRow, if_pos hle]
      refine List.Pairwise.cons (fun b hb => ?_) h
      rcases List.mem_cons.mp hb with rfl | hb
      · exact hle
      · exact le_trans hle (hs b hb)
    · rw [insertRow, if_neg hle]
      refine List.Pairwise.cons (fun b hb => ?_) (ih ht)
      rcases mem_insertRow.mp hb with rfl | hb
      · omega
      · exact hs b hb

lemma sortByYear_sorted (l : List Row) :
    (sortByYear l).Pairwise (fun a b => a.year ≤ b.year) := by
  induction l with
  | nil => simp [sortByYear]
  | cons r t ih => exact sorted_insertRow r ih

lemma sortByYear_nodup {l : List Row}
    (h : l.Pairwise (fun a b => a.year ≠ b.year)) :
    (sortByYear l).Pairwise (fun a b => a.year ≠ b.year) := by
  refine ((sortByYear_perm l).pairwise_iff ?_).mpr h
  intro a b hab
  exact Ne.symm hab

lemma insertRow_of_le (x : Row) (l : List Row)
    (h : ∀ b ∈ l, x.year ≤ b.year) : insertRow x l = x :: l := by
  cases l with
  | nil => rfl
  | cons s t => rw [insertRow, if_pos (h s (by simp))]

lemma sortByYear_eq_self {l : List Row}
    (h : l.Pairwise (fun a b => a.year ≤ b.year)) : sortByYear l = l := by
  induction l with
  | nil => rfl
  | cons r t ih =>
    rcases List.pairwise_cons.mp h with ⟨hr, ht⟩
    rw [sortByYear, ih ht, insertRow_of_le r t hr]

lemma insertRow_comm (x a : Row) (l : List Row) (hxa : x.year ≠ a.year) :
    insertRow a (insertRow x l) = insertRow x (insertRow a l) := by
  induction l with
  | nil =>
    by_cases h1 : a.year ≤ x.year
    · have h2 : ¬x.year ≤ a.year := by omega
      simp [insertRow, h1, h2]
    · have h2 : x.year ≤ a.year := by omega
      simp [insertRow, h1, h2]
  | cons s t ih =>
    by_cases hxs : x.year ≤ s.year <;> by_cases has : a.year ≤ s.year
    · by_cases hax : a.year ≤ x.year
      · have hxa' : ¬x.year ≤ a.year := by omega
        simp [insertRow, hxs, has, hax, hxa']
      · have hxa' : x.year ≤ a.year := by omega
        simp [insertRow, hxs, has, hax, hxa']
    · have h1 : ¬a.year ≤ x.year := by omega
      have h2 : x.year ≤ a.year := by omega
      simp [insertRow, hxs, has, h1, h2]
    · have h1 : ¬x.year ≤ a.year := by omega
      have h2 : a.year ≤ x.year := by omega
      simp [insertRow, hxs, has, h1, h2]
    · simp [insertRow, hxs, has, ih]

lemma sortByYear_append_single (l : List Row) (x : Row)
    (h : ∀ r ∈ l, r.year ≠ x.year) :
    sortByYear (l ++ [x]) = insertRow x (sortByYear l) := by
  induction l with
  | nil => rfl
  | cons a t ih =>
    rw [List.cons_append, sortByYear, ih (fun r hr => h r (by simp [hr])),
      sortByYear]
    exact insertRow_comm x a (sortByYear t) (Ne.symm (h a (by simp)))

lemma filter_ne_self {k : Int} {l : List Row} (h : ∀ r ∈ l, r.year ≠ k) :
    l.filter (fun r => r.year ≠ k) = l := by
  induction l with
  | nil => rfl
  | cons a t ih =>
    have ha : a.year ≠ k := h a (by simp)
    have ht := ih (fun r hr => h r (by simp [hr]))
    simp only [List.filter_cons, ht]
    simp [ha]

lemma filter_ne_insertRow (x : Row) (l : List Row) (k : Int) (hx : x.year = k) :
    (insertRow x l).filter (fun r => r.year ≠ k) =
      l.filter (fun r => r.year ≠ k) := by
  induction l with
  | nil => simp [insertRow, hx]
  | cons s t ih =>
    by_cases hle : x.year ≤ s.year
    · rw [insertRow, if_pos hle]
      simp [List.filter_cons, hx]
    · rw [insertRow, if_neg hle, List.filter_cons, List.filter_cons, ih]

lemma filter_eq_insertRow (x : Row) (l : List Row) (k : Int) (hx : x.year = k)
    (h : ∀ r ∈ l, r.year ≠ k) :
    (insertRow x l).filter (fun r => r.year = k) = [x] := by
  induction l with
  | nil => simp [insertRow, hx]
  | cons s t ih =>
    have hs := h s (by simp)
    by_cases hle : x.year ≤ s.year
    · rw [insertRow, if_pos hle]
      have ht : t.filter (fun r => r.year = k) = [] :=
        List.filter_eq_nil_iff.mpr (fun a ha => by simpa using h a (by simp [ha]))
      simp [List.filter_cons, hx, hs, ht]
    · rw [insertRow, if_neg hle]
      simp [List.filter_cons, hs, ih (fun r hr => h r (by simp [hr]))]

lemma aDC_insert_aDC (x : Row) (l : List Row) :
    addDerivedCols (insertRow x (addDerivedCols l)) =
      addDerivedCols (insertRow x l) := by
  induction l with
  | nil => rfl
  | cons a t ih =>
    by_cases hle : x.year ≤ a.year
    · have e1 : insertRow x (addDerivedCols (a :: t)) =
          x :: addDerivedRow a :: addDerivedCols t := by
        rw [aDC_cons, insertRow, if_pos]
        exact hle
      have e2 : insertRow x (a :: t) = x :: a :: t := by
        rw [insertRow, if_pos hle]
      rw [e1, e2]
      simp only [aDC_cons]
      rw [aRow_idem, aDC_aDC]
    · have e1 : insertRow x (addDerivedCols (a :: t)) =
          addDerivedRow a :: insertRow x (addDerivedCols t) := by
        rw [aDC_cons, insertRow, if_neg]
        exact hle
      have e2 : insertRow x (a :: t) = a :: insertRow x t := by
        rw [insertRow, if_neg hle]
      rw [e1, e2]
      simp only [aDC_cons]
      rw [aRow_idem, ih]

lemma existingRows_ne (csvFile : Option (List Row)) (k : Int) :
    ∀ r ∈ existingRows csvFile k, r.year ≠ k := by
  intro r hr
  cases csvFile with
  | none => simp [existingRows] at hr
  | some prev =>
    simp only [existingRows, List.mem_filter] at hr
    simpa using hr.2

lemma update_csv_single (csvFile : Option (List Row)) (nr : Row) (k : Int)
    (hk : nr.year = k) :
    update_csv csvFile [nr] k =
      addDerivedCols (insertRow nr
        (sortByYear (dropDuplicatesKeepLast (existingRows csvFile k)))) := by
  show addDerivedCols (sortByYear (dropDuplicatesKeepLast
      (existingRows csvFile k ++ [nr]))) = _
  have hex : ∀ r ∈ existingRows csvFile k, r.year ≠ nr.year := by
    intro r hr
    rw [hk]
    exact existingRows_ne csvFile k r hr
  rw [dropDup_append_single _ _ hex,
    sortByYear_append_single _ _ (fun r hr => hex r (mem_dropDup hr))]

/-- C2: whatever the input file and the new rows, the table produced by
`update_csv` is strictly ascending in the natural key `year`: it is sorted
by the key regardless of input order and no two rows share a key value. -/
theorem merge_sorted_unique (csvFile : Option (List Row)) (new_data : List Row)
    (year : Int) :
    (update_csv csvFile new_data year).Pairwise
      (fun a b => a.year < b.year) := by
  show (addDerivedCols (sortByYear (dropDuplicatesKeepLast
      (existingRows csvFile year ++ new_data)))).Pairwise
    (fun a b => a.year < b.year)
  have hnd := sortByYear_nodup
    (dropDup_nodup (existingRows csvFile year ++ new_data))
  have hs := sortByYear_sorted
    (dropDuplicatesKeepLast (existingRows csvFile year ++ new_data))
  exact aDC_pairwise ((hs.and hnd).imp
    (fun hab => lt_of_le_of_ne hab.1 hab.2))

/-- C1: merging the same single row for key `k` twice yields the same
table as merging it once, and that table holds exactly one row with
key `k`. -/
theorem merge_idempotent (csvFile : Option (List Row)) (nr : Row) (k : Int)
    (hk : nr.year = k) :
    update_csv (some (update_csv csvFile [nr] k)) [nr] k =
      update_csv csvFile [nr] k ∧
    ((update_csv csvFile [nr] k).filter (fun r => r.year = k)).length = 1 := by
  have hT := update_csv_single csvFile nr k hk
  set G := sortByYear (dropDuplicatesKeepLast (existingRows csvFile k))
    with hGdef
  have hGne : ∀ r ∈ G, r.year ≠ k := by
    intro r hr
    rw [hGdef] at hr
    exact existingRows_ne csvFile k r (mem_dropDup (mem_sortByYear.mp hr))
  have hGnd : G.Pairwise (fun a b => a.year ≠ b.year) := by
    rw [hGdef]; exact sortByYear_nodup (dropDup_nodup _)
  have hGs : G.Pairwise (fun a b => a.year ≤ b.year) := by
    rw [hGdef]; exact sortByYear_sorted _
  have hT2 := update_csv_single (some (update_csv csvFile [nr] k)) nr k hk
  have hfilter : existingRows (some (update_csv csvFile [nr] k)) k =
      addDerivedCols G := by
    show (update_csv csvFile [nr] k).filter (fun r => r.year ≠ k) =
      addDerivedCols G
    rw [hT, filter_aDC (fun r => decide (r.year ≠ k)) (fun r => rfl)
        (insertRow nr G),
      filter_ne_insertRow nr G k hk, filter_ne_self hGne]
  refine ⟨?_, ?_⟩
  · rw [hT2, hfilter, dropDup_eq_self (aDC_pairwise hGnd),
      sortByYear_eq_self (aDC_pairwise hGs), aDC_insert_aDC, hT]
  · rw [hT, filter_aDC (fun r => decide (r.year = k)) (fun r => rfl)
        (insertRow nr G),
      filter_eq_insertRow nr G k hk hGne]
    rfl

/-- Witness for C1: merging a fresh row for year 2 into a one-row table
for year 1 twice gives the once-merged table, with exactly one year-2
row. -/
theorem merge_idempotent_witness :
    update_csv (some (update_csv (some [sampleFixedA]) [sampleNew] 2))
        [sampleNew] 2 =
      update_csv (some [sampleFixedA]) [sampleNew] 2 ∧
    ((update_csv (some [sampleFixedA]) [sampleNew] 2).filter
        (fun r => r.year = 2)).length = 1 :=
  merge_idempotent (some [sampleFixedA]) sampleNew 2 rfl

/-- C3: re-merging key `k` into a well-formed persisted table (strictly
sorted by key, derived columns consistent — the invariants every table
written by `update_csv` enjoys) replaces the `k` row by the freshly
fetched data (with its derived columns recomputed) and leaves every row
with another key exactly as it was. -/
theorem merge_replaces_key (P : List Row) (nr : Row) (k : Int)
    (_hmem : ∃ r ∈ P, r.year = k)
    (hP : P.Pairwise (fun a b => a.year < b.year))
    (hD : addDerivedCols P = P) (hk : nr.year = k) :
    (update_csv (some P) [nr] k).filter (fun r => r.year ≠ k) =
      P.filter (fun r => r.year ≠ k) ∧
    (update_csv (some P) [nr] k).filter (fun r => r.year = k) =
      [addDerivedRow nr] := by
  have hpipe := update_csv_single (some P) nr k hk
  have hEeq : existingRows (some P) k = P.filter (fun r => r.year ≠ k) := rfl
  have hEne : ∀ r ∈ P.filter (fun r => r.year ≠ k), r.year ≠ k := by
    intro r hr
    simp only [List.mem_filter] at hr
    simpa using hr.2
  have hEsub : (P.filter (fun r => r.year ≠ k)).Sublist P :=
    List.filter_sublist _
  have hEp : (P.filter (fun r => r.year ≠ k)).Pairwise
      (fun a b => a.year < b.year) := List.Pairwise.sublist hEsub hP
  have hEnd := hEp.imp (fun hab => ne_of_lt hab)
  have hEs := hEp.imp (fun hab => le_of_lt hab)
  have hEfix : addDerivedCols (P.filter (fun r => r.year ≠ k)) =
      P.filter (fun r => r.year ≠ k) :=
    aDC_eq_self_of_fix (fun a ha => map_fix_of_eq hD a (hEsub.subset ha))
  rw [hpipe, hEeq, dropDup_eq_self hEnd, sortByYear_eq_self hEs]
  constructor
  · rw [filter_aDC (fun r => decide (r.year ≠ k)) (fun r => rfl),
      filter_ne_insertRow nr _ k hk, filter_ne_self hEne, hEfix]
  · rw [filter_aDC (fun r => decide (r.year = k)) (fun r => rfl),
      filter_eq_insertRow nr _ k hk hEne]
    rfl

/-- Witness for C3: re-merging year 2 into a consistent two-row table
(years 1 and 2) keeps the year-1 row and replaces the year-2 row by the
new data with its derived columns recomputed. -/
theorem merge_replaces_key_witness :
    (update_csv (some [sampleFixedA, sampleFixedB]) [sampleNew] 2).filter
        (fun r => r.year ≠ 2) =
      [sampleFixedA, sampleFixedB].filter (fun r => r.year ≠ 2) ∧
    (update_csv (some [sampleFixedA, sampleFixedB]) [sampleNew] 2).filter
        (fun r => r.year = 2) = [addDerivedRow sampleNew] :=
  merge_replaces_key [sampleFixedA, sampleFixedB] sampleNew 2
    ⟨sampleFixedB, by simp, rfl⟩
    (by simp [sampleFixedA, sampleFixedB])
    (by norm_num [addDerivedCols, addDerivedRow, safeDiv, fgaOf, tovDen,
      sampleFixedA, sampleFixedB])
    rfl

end NbaFetch
